import Mathlib

/-
Shallow embedding of the resilience layer of `src/services/index.js`:
a sliding-window circuit breaker with retry-with-exponential-backoff and
a self-rescheduling recovery probe, guarding the POST /addEvent route.

The JavaScript module state (failureTimestamps, circuitOpen, nextProbe)
becomes an explicit record `SrvState`; each request handler invocation and
each probe-timer firing is modelled as one atomic step of a transition
function over that record, driven by an `Event` trace.  Downstream fetch
outcomes are supplied by the environment: a request event carries a
function `Nat → Bool` giving the `resp.ok` result of each retry attempt,
and a probe event carries the probe fetch's outcome.
-/

namespace ChallengeBackend

/-- Constant FAILURE_WINDOW of the source: time window to count failures, 30s in ms. -/
def FAILURE_WINDOW : Int := 30 * 1000

/-- Constant FAILURE_THRESHOLD of the source: number of failures to open the circuit. -/
def FAILURE_THRESHOLD : Nat := 3

/-- Constant BACKOFF_TIME of the source: wait before probing for recovery, 30s in ms. -/
def BACKOFF_TIME : Int := 30 * 1000

/-- Constant MAX_RETRIES of the source retry configuration. -/
def MAX_RETRIES : Nat := 3

/-- Constant INITIAL_RETRY_DELAY of the source retry configuration, in ms. -/
def INITIAL_RETRY_DELAY : Nat := 1000

/-- Loop body of `retryWithBackoff`.  `attempt` is the current attempt index
(the source's loop counter), `fuel` the number of loop iterations still allowed
after this one (`maxRetries - attempt`; the source's guard `attempt === maxRetries`
after a failed attempt is exactly `fuel = 0`).  Returns the final result, the
number of invocations of `fn` performed, and the list of backoff delays slept
between failed attempts: a success returns immediately, a failure with fuel
left sleeps `baseDelay * 2 ^ attempt` and loops, a failure on the final
attempt rethrows that last error. -/
def retryGo {E A : Type} (fn : Nat → Except E A) (baseDelay : Nat) :
    Nat → Nat → Except E A × Nat × List Nat
  | attempt, 0 =>
    match fn attempt with
    | Except.ok a => (Except.ok a, 1, [])
    | Except.error e => (Except.error e, 1, [])
  | attempt, fuel + 1 =>
    match fn attempt with
    | Except.ok a => (Except.ok a, 1, [])
    | Except.error _ =>
      let d := baseDelay * 2 ^ attempt
      let r := retryGo fn baseDelay (attempt + 1) fuel
      (r.1, r.2.1 + 1, d :: r.2.2)

/-- Source `retryWithBackoff(fn, maxRetries, baseDelay)`: run `fn` up to
`maxRetries + 1` times (attempts 0..maxRetries), sleeping
`baseDelay * 2 ^ attempt` after each failed non-final attempt, returning the
first success or, once `attempt === maxRetries` fails, the last error. -/
def retryWithBackoff {E A : Type} (fn : Nat → Except E A)
    (maxRetries : Nat) (baseDelay : Nat) : Except E A × Nat × List Nat :=
  retryGo fn baseDelay 0 maxRetries

/-- The source's pruning loop, shared by the success and failure branches of
the /addEvent handler: `while (failureTimestamps.length && now - failureTimestamps[0] > FAILURE_WINDOW) failureTimestamps.shift()`. -/
def prune (now : Int) : List Int → List Int
  | [] => []
  | t :: rest => if now - t > FAILURE_WINDOW then prune now rest else t :: rest

/-- The breaker's module-level mutable state in the source:
`failureTimestamps` (array of recent failure times), `circuitOpen` (flag),
`nextProbe` (whether the timer-handle variable holds a timer reference).
`pendingDelays` additionally records the delays of the scheduled, not yet
fired timers, so that "how many probe timers are pending, and with what
delay" is observable in the model. -/
structure SrvState where
  failureTimestamps : List Int
  circuitOpen : Bool
  nextProbe : Bool
  pendingDelays : List Int
deriving DecidableEq

/-- Initial module state of the source: empty failure list, circuit closed,
no probe timer. -/
def initState : SrvState :=
  { failureTimestamps := [], circuitOpen := false, nextProbe := false,
    pendingDelays := [] }

/-- The three response kinds the /addEvent route can produce. -/
inductive Resp
  | success
  | retriesExhausted
  | circuitOpen
deriving DecidableEq

/-- Wrap a per-attempt downstream `resp.ok` oracle as the fallible operation
passed to `retryWithBackoff`: a non-ok response throws. -/
def attemptOp (fn : Nat → Bool) : Nat → Except Unit Unit :=
  fun i => if fn i then Except.ok () else Except.error ()

/-- Success-branch upkeep of the /addEvent handler (STEP 3 in the source):
prune stale failure timestamps; nothing else is touched. -/
def onSuccess (s : SrvState) (now : Int) : SrvState :=
  { s with failureTimestamps := prune now s.failureTimestamps }

/-- Failure-branch state update of the /addEvent handler (STEP 4 and STEP 5
in the source): push `now` onto the failure list, prune stale entries, and if
the pruned count reaches FAILURE_THRESHOLD while the circuit is not yet open,
open the circuit and, only when the timer-handle variable is still null,
store one newly scheduled probe timer with delay BACKOFF_TIME. -/
def onFailure (s : SrvState) (now : Int) : SrvState :=
  if FAILURE_THRESHOLD ≤ (prune now (s.failureTimestamps ++ [now])).length ∧
      s.circuitOpen = false then
    if s.nextProbe then
      { failureTimestamps := prune now (s.failureTimestamps ++ [now]),
        circuitOpen := true, nextProbe := s.nextProbe,
        pendingDelays := s.pendingDelays }
    else
      { failureTimestamps := prune now (s.failureTimestamps ++ [now]),
        circuitOpen := true, nextProbe := true,
        pendingDelays := s.pendingDelays ++ [BACKOFF_TIME] }
  else
    { s with failureTimestamps := prune now (s.failureTimestamps ++ [now]) }

/-- The POST /addEvent handler, one atomic invocation.  `now` is the clock
value, `fn i` the downstream `resp.ok` outcome of retry attempt `i`.
Returns the new state, the response sent, and the number of downstream
fetch calls performed.  Mirrors the source: STEP 1 reject when open;
STEP 2 retryWithBackoff around the fetch; STEP 3 prune on success;
STEP 4 and STEP 5 record the failure via `onFailure`. -/
def handleAddEvent (s : SrvState) (now : Int) (fn : Nat → Bool) :
    SrvState × Resp × Nat :=
  if s.circuitOpen then
    (s, Resp.circuitOpen, 0)
  else
    let r := retryWithBackoff (attemptOp fn) MAX_RETRIES INITIAL_RETRY_DELAY
    match r.1 with
    | Except.ok _ => (onSuccess s now, Resp.success, r.2.1)
    | Except.error _ => (onFailure s now, Resp.retriesExhausted, r.2.1)

/-- State effect of `probeExternalService`: on an ok response the circuit
closes, the failure list is emptied and the timer handle set to null; on a
failed probe nothing is changed (the caller reschedules). -/
def probeExternalService (s : SrvState) (ok : Bool) : SrvState :=
  if ok then
    { s with circuitOpen := false, failureTimestamps := [], nextProbe := false }
  else
    s

/-- A pending probe timer fires (one atomic step: the timer ceases to be
pending, `probeExternalService` runs to completion, and on failure the
callback stores one new timer with delay BACKOFF_TIME in `nextProbe`).
If no timer is pending, nothing can fire and the state is unchanged. -/
def fireProbe (s : SrvState) (ok : Bool) : SrvState :=
  match s.pendingDelays with
  | [] => s
  | _ :: rest =>
    let fired := { s with pendingDelays := rest }
    let s' := probeExternalService fired ok
    if ok then s'
    else { s' with nextProbe := true, pendingDelays := s'.pendingDelays ++ [BACKOFF_TIME] }

/-- An externally observable event: a POST /addEvent request arriving at
clock time `now` with downstream attempt outcomes `fn`, or the pending
probe timer firing with probe outcome `ok`. -/
inductive Event
  | request (now : Int) (fn : Nat → Bool)
  | probeFire (ok : Bool)

/-- One atomic step of the server on an event. -/
def step (s : SrvState) : Event → SrvState
  | Event.request now fn => (handleAddEvent s now fn).1
  | Event.probeFire ok => fireProbe s ok

/-- Number of downstream fetch calls performed while handling an event:
the retry attempts of a request, or the single bare fetch of a fired probe. -/
def stepCalls (s : SrvState) : Event → Nat
  | Event.request now fn => (handleAddEvent s now fn).2.2
  | Event.probeFire _ =>
    match s.pendingDelays with
    | [] => 0
    | _ :: _ => 1

/-- Response sent to the inbound caller for an event (probes answer nobody). -/
def stepResp (s : SrvState) : Event → Option Resp
  | Event.request now fn => some (handleAddEvent s now fn).2.1
  | Event.probeFire _ => none

/-- Run a trace of events from a state. -/
def run (s : SrvState) (evs : List Event) : SrvState :=
  evs.foldl step s

/-- Per-event observations (response, downstream call count) along a trace. -/
def runOuts (s : SrvState) : List Event → List (Option Resp × Nat)
  | [] => []
  | e :: rest => (stepResp s e, stepCalls s e) :: runOuts (step s e) rest

/-- A JSON leaf value, enough for the payloads the source sends. -/
inductive JsonValue
  | str (s : String)
  | num (n : Int)
deriving DecidableEq

/-- A downstream HTTP request descriptor: url, method, JSON object body
given as the ordered field list of the object literal. -/
structure HttpRequest where
  url : String
  method : String
  body : List (String × JsonValue)
deriving DecidableEq

/-- The downstream event-creation endpoint both the handler and the probe post to. -/
def addEventUrl : String := "http://event.com/addEvent"

/-- The request `probeExternalService` sends: a POST to the addEvent
endpoint with the fixed probe payload. -/
def probeRequest : HttpRequest :=
  { url := addEventUrl, method := "POST",
    body := [("name", JsonValue.str "__probe__"), ("userId", JsonValue.str "probe")] }

/-- The request each retry attempt of the /addEvent handler sends: a POST to
the addEvent endpoint whose body is the object literal with the field `id`
bound to the current clock time followed by the spread of the inbound
request body. -/
def downstreamRequest (now : Int) (body : List (String × JsonValue)) : HttpRequest :=
  { url := addEventUrl, method := "POST",
    body := ("id", JsonValue.num now) :: body }

/-- Property lookup on a JavaScript object literal written as an ordered
field list: a later occurrence of a key overwrites an earlier one, so the
value returned is the last binding of the key. -/
def jsLookup (k : String) : List (String × JsonValue) → Option JsonValue
  | [] => none
  | (k', v) :: rest =>
    match jsLookup k rest with
    | some v' => some v'
    | none => if k' = k then some v else none

/-! Helper lemmas about the embedded operations. -/

/-- An always-failing operation makes every iteration of the retry loop fail,
so the loop ends in the error of its last attempt. -/
theorem retryGo_fail (fn : Nat → Bool) (h : ∀ i, fn i = false) (b : Nat) :
    ∀ fuel attempt, (retryGo (attemptOp fn) b attempt fuel).1 = Except.error () := by
  intro fuel
  induction fuel with
  | zero => intro attempt; simp [retryGo, attemptOp, h]
  | succ fuel' ih => intro attempt; simp [retryGo, attemptOp, h, ih]

/-- Handler behaviour with the circuit open: immediate rejection, no state
change, zero downstream calls. -/
theorem handleAddEvent_open (s : SrvState) (now : Int) (fn : Nat → Bool)
    (h : s.circuitOpen = true) :
    handleAddEvent s now fn = (s, Resp.circuitOpen, 0) := by
  unfold handleAddEvent
  simp [h]

/-- Handler behaviour with the circuit closed and a retried operation that
ends in success: the success upkeep runs. -/
theorem handleAddEvent_closed_ok (s : SrvState) (now : Int) (fn : Nat → Bool)
    (hc : s.circuitOpen = false) (u : Unit)
    (hr : (retryWithBackoff (attemptOp fn) MAX_RETRIES INITIAL_RETRY_DELAY).1 = Except.ok u) :
    handleAddEvent s now fn =
      (onSuccess s now, Resp.success,
        (retryWithBackoff (attemptOp fn) MAX_RETRIES INITIAL_RETRY_DELAY).2.1) := by
  unfold handleAddEvent
  simp [hc, hr]

/-- Handler behaviour with the circuit closed and a retried operation that
exhausts all attempts: the failure branch runs. -/
theorem handleAddEvent_closed_fail (s : SrvState) (now : Int) (fn : Nat → Bool)
    (hc : s.circuitOpen = false) (u : Unit)
    (hr : (retryWithBackoff (attemptOp fn) MAX_RETRIES INITIAL_RETRY_DELAY).1 = Except.error u) :
    handleAddEvent s now fn =
      (onFailure s now, Resp.retriesExhausted,
        (retryWithBackoff (attemptOp fn) MAX_RETRIES INITIAL_RETRY_DELAY).2.1) := by
  unfold handleAddEvent
  simp [hc, hr]

/-- Pruning returns a suffix of the original sequence. -/
theorem prune_suffix (now : Int) (w : List Int) : prune now w <:+ w := by
  induction w with
  | nil => simp [prune]
  | cons t rest ih =>
    by_cases hstale : now - t > FAILURE_WINDOW
    · simp only [prune, if_pos hstale]
      exact ih.trans (List.suffix_cons t rest)
    · simp [prune, hstale]

/-- Pruning never removes an entry that is still inside the window: the
fresh entries of the input survive, so the pruned length is at least the
number of fresh entries. -/
theorem length_filter_le_prune (now : Int) (w : List Int) :
    (w.filter fun e => decide (now - e ≤ FAILURE_WINDOW)).length ≤ (prune now w).length := by
  induction w with
  | nil => simp [prune]
  | cons t rest ih =>
    simp only [prune, List.filter_cons]
    by_cases hstale : now - t > FAILURE_WINDOW
    · have hp : decide (now - t ≤ FAILURE_WINDOW) = false :=
        decide_eq_false (not_le.mpr hstale)
      rw [if_pos hstale, hp]
      simpa using ih
    · have hp : decide (now - t ≤ FAILURE_WINDOW) = true :=
        decide_eq_true (not_lt.mp hstale)
      rw [if_neg hstale, hp]
      simp only [if_pos rfl, List.length_cons]
      exact Nat.succ_le_succ (List.length_filter_le _ _)

/-- On a chronologically ordered sequence, pruning removes exactly the stale
entries: it agrees with filtering by freshness. -/
theorem prune_eq_filter_of_sorted (now : Int) (w : List Int)
    (hs : List.Sorted (· ≤ ·) w) :
    prune now w = w.filter fun e => decide (now - e ≤ FAILURE_WINDOW) := by
  induction w with
  | nil => simp [prune]
  | cons t rest ih =>
    have hall : ∀ e ∈ rest, t ≤ e := (List.sorted_cons.mp hs).1
    have hs' : List.Sorted (· ≤ ·) rest := (List.sorted_cons.mp hs).2
    simp only [prune, List.filter_cons]
    by_cases hstale : now - t > FAILURE_WINDOW
    · have hp : decide (now - t ≤ FAILURE_WINDOW) = false :=
        decide_eq_false (not_le.mpr hstale)
      rw [if_pos hstale, hp]
      simpa using ih hs'
    · have hp : decide (now - t ≤ FAILURE_WINDOW) = true :=
        decide_eq_true (not_lt.mp hstale)
      rw [if_neg hstale, hp]
      have hfr : rest.filter (fun e => decide (now - e ≤ FAILURE_WINDOW)) = rest :=
        List.filter_eq_self.mpr
          (fun e he => decide_eq_true (by have := hall e he; omega))
      show t :: rest = t :: List.filter (fun e => decide (now - e ≤ FAILURE_WINDOW)) rest
      rw [hfr]

/-- The reachability invariant of the breaker: the timer-handle variable is
set exactly when the circuit is open, and the set of pending probe timers is
empty when the handle is null and the single BACKOFF_TIME timer when it is set. -/
def Inv (s : SrvState) : Prop :=
  s.nextProbe = s.circuitOpen ∧
  s.pendingDelays = (if s.nextProbe then [BACKOFF_TIME] else [])

/-- The initial state satisfies the invariant. -/
theorem inv_init : Inv initState := by
  constructor <;> rfl

/-- The failure-branch update preserves the invariant when invoked with the
circuit closed (the only way the handler invokes it). -/
theorem inv_onFailure (s : SrvState) (now : Int) (hc : s.circuitOpen = false)
    (h : Inv s) : Inv (onFailure s now) := by
  obtain ⟨hnp, hpd⟩ := h
  have hnp' : s.nextProbe = false := hnp.trans hc
  have hpd' : s.pendingDelays = [] := by rw [hpd, hnp']; simp
  unfold onFailure
  by_cases hth : FAILURE_THRESHOLD ≤ (prune now (s.failureTimestamps ++ [now])).length ∧
      s.circuitOpen = false
  · rw [if_pos hth, if_neg (by rw [hnp']; exact Bool.false_ne_true)]
    exact ⟨rfl, by simp [hpd']⟩
  · rw [if_neg hth]
    exact ⟨hnp, hpd⟩

/-- On success the probe resets the breaker to the closed state with an empty
window and a cleared timer handle. -/
theorem fireProbe_ok (s : SrvState) (d : Int) (rest : List Int)
    (hp : s.pendingDelays = d :: rest) :
    fireProbe s true =
      { failureTimestamps := [], circuitOpen := false, nextProbe := false,
        pendingDelays := rest } := by
  unfold fireProbe
  rw [hp]
  simp [probeExternalService]

/-- On failure the fired probe leaves window and circuit flag alone and
stores one newly scheduled BACKOFF_TIME timer. -/
theorem fireProbe_fail (s : SrvState) (d : Int) (rest : List Int)
    (hp : s.pendingDelays = d :: rest) :
    fireProbe s false =
      { s with nextProbe := true, pendingDelays := rest ++ [BACKOFF_TIME] } := by
  unfold fireProbe
  rw [hp]
  simp [probeExternalService]

/-- Every atomic step preserves the invariant. -/
theorem inv_step (s : SrvState) (e : Event) (h : Inv s) : Inv (step s e) := by
  obtain ⟨hnp, hpd⟩ := h
  cases e with
  | request now fn =>
    show Inv (handleAddEvent s now fn).1
    by_cases ho : s.circuitOpen = true
    · rw [handleAddEvent_open s now fn ho]
      exact ⟨hnp, hpd⟩
    · have hc : s.circuitOpen = false := by
        revert ho; cases s.circuitOpen <;> simp
      cases hr : (retryWithBackoff (attemptOp fn) MAX_RETRIES INITIAL_RETRY_DELAY).1 with
      | ok u =>
        rw [handleAddEvent_closed_ok s now fn hc u hr]
        exact ⟨hnp, hpd⟩
      | error u =>
        rw [handleAddEvent_closed_fail s now fn hc u hr]
        exact inv_onFailure s now hc ⟨hnp, hpd⟩
  | probeFire ok =>
    show Inv (fireProbe s ok)
    cases hp : s.pendingDelays with
    | nil =>
      have hfp : fireProbe s ok = s := by unfold fireProbe; rw [hp]
      rw [hfp]
      exact ⟨hnp, hpd⟩
    | cons d rest =>
      have hnp' : s.nextProbe = true := by
        by_contra hcon
        have hfalse : s.nextProbe = false := by
          revert hcon; cases s.nextProbe <;> simp
        rw [hfalse] at hpd
        simp only [Bool.false_eq_true, if_false] at hpd
        rw [hp] at hpd
        exact List.cons_ne_nil d rest hpd
      have hco : s.circuitOpen = true := hnp.symm.trans hnp'
      have hrest : rest = [] := by
        have h3 : s.pendingDelays = [BACKOFF_TIME] := by
          rw [hpd, hnp']
          rfl
        have h2 : d :: rest = [BACKOFF_TIME] := hp.symm.trans h3
        injection h2 with hh ht
      cases ok with
      | true =>
        rw [fireProbe_ok s d rest hp]
        exact ⟨rfl, by simp [hrest]⟩
      | false =>
        rw [fireProbe_fail s d rest hp]
        refine ⟨?_, ?_⟩
        · show true = s.circuitOpen
          exact hco.symm
        · show rest ++ [BACKOFF_TIME] = if true = true then [BACKOFF_TIME] else []
          simp [hrest]

/-- The invariant holds in every reachable state. -/
theorem inv_run (evs : List Event) : Inv (run initState evs) := by
  suffices h : ∀ s, Inv s → Inv (run s evs) from h initState inv_init
  induction evs with
  | nil => intro s hs; exact hs
  | cons e rest ih =>
    intro s hs
    exact ih (step s e) (inv_step s e hs)

/-- With the circuit open, a trace of regular requests leaves the state
untouched and every request is answered with the circuit-open rejection and
zero downstream calls. -/
theorem run_requests_open (s : SrvState) (h : s.circuitOpen = true)
    (revs : List Event)
    (hreq : ∀ e ∈ revs, ∃ now fn, e = Event.request now fn) :
    run s revs = s ∧
    runOuts s revs = revs.map (fun _ => (some Resp.circuitOpen, 0)) := by
  revert hreq
  induction revs with
  | nil => intro _; exact ⟨rfl, rfl⟩
  | cons e rest ih =>
    intro hreq
    obtain ⟨now, fn, he⟩ := hreq e (List.mem_cons_self e rest)
    subst he
    have hstep : step s (Event.request now fn) = s := by
      show (handleAddEvent s now fn).1 = s
      rw [handleAddEvent_open s now fn h]
    have hrest : ∀ e' ∈ rest, ∃ now' fn', e' = Event.request now' fn' :=
      fun e' he' => hreq e' (List.mem_cons_of_mem _ he')
    obtain ⟨ih1, ih2⟩ := ih hrest
    constructor
    · show run (step s (Event.request now fn)) rest = s
      rw [hstep, ih1]
    · show (stepResp s (Event.request now fn), stepCalls s (Event.request now fn)) ::
        runOuts (step s (Event.request now fn)) rest = _
      rw [hstep]
      simp [stepResp, stepCalls, handleAddEvent_open s now fn h, ih2]

/-- In any reachable state with a pending probe timer, that timer is the
single BACKOFF_TIME timer, the handle variable is set, and the circuit is open. -/
theorem pending_nonempty_state (evs : List Event)
    (h : (run initState evs).pendingDelays ≠ []) :
    (run initState evs).pendingDelays = [BACKOFF_TIME] ∧
    (run initState evs).nextProbe = true ∧
    (run initState evs).circuitOpen = true := by
  have hInv := inv_run evs
  by_cases hnp : (run initState evs).nextProbe = true
  · refine ⟨?_, hnp, hInv.1.symm.trans hnp⟩
    rw [hInv.2, if_pos hnp]
  · exfalso
    apply h
    rw [hInv.2, if_neg hnp]

/-- A sample always-failing downstream oracle: every attempt gets a non-ok
response. -/
def alwaysFail : Nat → Bool := fun _ => false

/-- A request trace of three consecutive failing requests at t = 0s, 1s, 2s,
enough to trip the breaker. -/
def failTrace : List Event :=
  [Event.request 0 alwaysFail, Event.request 1000 alwaysFail,
   Event.request 2000 alwaysFail]

/-- A sample state with the circuit open and one pending probe. -/
def openSampleState : SrvState :=
  { failureTimestamps := [0, 1000, 2000], circuitOpen := true,
    nextProbe := true, pendingDelays := [BACKOFF_TIME] }

/-! The claims. -/

/-- C2: retryWithBackoff with maxRetries = 3 and baseDelay = 1000 against an
operation failing on every invocation invokes it exactly 4 times, sleeps
exactly 1000 ms, 2000 ms and 4000 ms between consecutive failed attempts
(no delay after the final attempt), and surfaces the last observed failure
(the error of attempt 3) to the caller. -/
theorem retry_exhausts_four_attempts {E A : Type} (err : Nat → E)
    (fn : Nat → Except E A) (hfn : ∀ i, fn i = Except.error (err i)) :
    retryWithBackoff fn MAX_RETRIES INITIAL_RETRY_DELAY
      = (Except.error (err 3), 4, [1000, 2000, 4000]) := by
  have h0 := hfn 0
  have h1 := hfn 1
  have h2 := hfn 2
  have h3 := hfn 3
  unfold retryWithBackoff MAX_RETRIES INITIAL_RETRY_DELAY
  simp [retryGo, h0, h1, h2, h3]

/-- C2 witness: a concrete always-failing operation carrying its attempt
index as the error. -/
theorem retry_exhausts_four_attempts_witness :
    retryWithBackoff (fun i => (Except.error i : Except Nat Unit))
        MAX_RETRIES INITIAL_RETRY_DELAY
      = (Except.error 3, 4, [1000, 2000, 4000]) :=
  retry_exhausts_four_attempts (fun i => i) (fun i => Except.error i)
    (fun _ => rfl)

/-- C6: a request handled while the circuit is open gets the circuit-open
rejection immediately, with zero downstream calls (no retry executor run)
and a completely unchanged breaker state: same failure window (not even
pruned), same circuit flag, same probe handle, same pending timers. -/
theorem open_circuit_rejects_without_state_change (s : SrvState) (now : Int)
    (fn : Nat → Bool) (h : s.circuitOpen = true) :
    handleAddEvent s now fn = (s, Resp.circuitOpen, 0) :=
  handleAddEvent_open s now fn h

/-- C6 witness: a concrete open state and a request whose downstream would
even succeed. -/
theorem open_circuit_rejects_without_state_change_witness :
    handleAddEvent openSampleState 3000 (fun _ => true)
      = (openSampleState, Resp.circuitOpen, 0) :=
  open_circuit_rejects_without_state_change openSampleState 3000
    (fun _ => true) rfl

/-- C7: the success notification (the success branch's window upkeep) never
throws (it is a total function) and only prunes stale window entries: the
circuit flag, probe handle and pending timers are untouched, so in a Closed
state it leaves the breaker Closed; and while the circuit is Open the
handler returns before the success upkeep can run, leaving the breaker state
entirely unchanged, so the success notification has no effect there. -/
theorem success_upkeep_preserves_state (s : SrvState) (now : Int)
    (fn : Nat → Bool) :
    ((onSuccess s now).circuitOpen = s.circuitOpen ∧
     (onSuccess s now).nextProbe = s.nextProbe ∧
     (onSuccess s now).pendingDelays = s.pendingDelays ∧
     (onSuccess s now).failureTimestamps = prune now s.failureTimestamps) ∧
    (s.circuitOpen = true → handleAddEvent s now fn = (s, Resp.circuitOpen, 0)) :=
  ⟨⟨rfl, rfl, rfl, rfl⟩, fun h => handleAddEvent_open s now fn h⟩

/-- C7 witness: the open sample state, with a would-be-successful downstream. -/
theorem success_upkeep_preserves_state_witness :
    (onSuccess openSampleState 3000).circuitOpen = openSampleState.circuitOpen ∧
    handleAddEvent openSampleState 3000 (fun _ => true)
      = (openSampleState, Resp.circuitOpen, 0) :=
  ⟨(success_upkeep_preserves_state openSampleState 3000 (fun _ => true)).1.1,
   (success_upkeep_preserves_state openSampleState 3000 (fun _ => true)).2 rfl⟩

/-- C8: on a chronologically ordered failure list, pruning at time `now`
removes exactly the stale entries: it equals filtering by
`now - e ≤ FAILURE_WINDOW` (so no fresh entry is removed and every stale one
is), every remaining entry is within the window, and the remainder is a
suffix of the input, keeping its order. -/
theorem prune_removes_exactly_stale_entries (now : Int) (w : List Int)
    (hsorted : List.Sorted (· ≤ ·) w) :
    prune now w = w.filter (fun e => decide (now - e ≤ FAILURE_WINDOW)) ∧
    (∀ e ∈ prune now w, now - e ≤ FAILURE_WINDOW) ∧
    prune now w <:+ w := by
  refine ⟨prune_eq_filter_of_sorted now w hsorted, ?_, prune_suffix now w⟩
  intro e he
  rw [prune_eq_filter_of_sorted now w hsorted] at he
  exact of_decide_eq_true (List.mem_filter.mp he).2

/-- C8 witness: pruning a concrete sorted window at t = 40s drops exactly
the two entries older than 30s. -/
theorem prune_removes_exactly_stale_entries_witness :
    prune 40000 [0, 5000, 15000, 39000]
      = [0, 5000, 15000, 39000].filter
          (fun e => decide ((40000 : Int) - e ≤ FAILURE_WINDOW)) ∧
    (∀ e ∈ prune 40000 [0, 5000, 15000, 39000],
      (40000 : Int) - e ≤ FAILURE_WINDOW) ∧
    prune 40000 [0, 5000, 15000, 39000] <:+ [0, 5000, 15000, 39000] :=
  prune_removes_exactly_stale_entries 40000 [0, 5000, 15000, 39000] (by decide)

/-- C10: the body sent downstream is the inbound payload spread over a
server-assigned `id` field holding the clock value: the object literal is
the `id` field followed by the inbound fields, and since in JavaScript a
later field overwrites an earlier one, a client-supplied `id` overrides the
server-assigned identifier, which is used only when the client sent none. -/
theorem downstream_body_merges_id_then_payload (now : Int)
    (body : List (String × JsonValue)) :
    (downstreamRequest now body).body = ("id", JsonValue.num now) :: body ∧
    (jsLookup "id" body = none →
      jsLookup "id" (downstreamRequest now body).body = some (JsonValue.num now)) ∧
    ∀ v, jsLookup "id" body = some v →
      jsLookup "id" (downstreamRequest now body).body = some v := by
  refine ⟨rfl, ?_, ?_⟩
  · intro hnone
    show jsLookup "id" (("id", JsonValue.num now) :: body) = _
    simp [jsLookup, hnone]
  · intro v hv
    show jsLookup "id" (("id", JsonValue.num now) :: body) = _
    simp [jsLookup, hv]

/-- C10 witness: a payload carrying its own id overrides the server's. -/
theorem downstream_body_merges_id_then_payload_witness :
    jsLookup "id" (downstreamRequest 7 [("id", JsonValue.str "X")]).body
      = some (JsonValue.str "X") :=
  (downstream_body_merges_id_then_payload 7 [("id", JsonValue.str "X")]).2.2
    (JsonValue.str "X") rfl

/-- C3: along every event trace at most one probe timer is pending in the
reached state, and whatever event comes next — a request trying to arm a
probe while one is scheduled, or a probe failure replacing the fired timer
with its reschedule — still at most one timer is pending afterwards. -/
theorem at_most_one_probe_pending (evs : List Event) :
    (run initState evs).pendingDelays.length ≤ 1 ∧
    ∀ e, (step (run initState evs) e).pendingDelays.length ≤ 1 := by
  have hbound : ∀ s : SrvState, Inv s → s.pendingDelays.length ≤ 1 := by
    intro s hs
    rw [hs.2]
    by_cases h : s.nextProbe = true
    · rw [if_pos h]
      exact le_refl 1
    · rw [if_neg h]
      exact Nat.zero_le 1
  exact ⟨hbound _ (inv_run evs),
    fun e => hbound _ (inv_step _ e (inv_run evs))⟩

/-- C4: when the pending probe fires and succeeds, the breaker state becomes
exactly the initial one — circuit Closed, failure window empty, probe handle
cleared, no pending timer — so any next regular call is handled exactly as
from a fresh start with no failures ever recorded. -/
theorem probe_success_resets_breaker (evs : List Event)
    (h : (run initState evs).pendingDelays ≠ []) :
    step (run initState evs) (Event.probeFire true) = initState ∧
    ∀ now fn, handleAddEvent (step (run initState evs) (Event.probeFire true)) now fn
      = handleAddEvent initState now fn := by
  have hp := (pending_nonempty_state evs h).1
  have hreset : step (run initState evs) (Event.probeFire true) = initState := by
    show fireProbe (run initState evs) true = initState
    rw [fireProbe_ok (run initState evs) BACKOFF_TIME [] hp]
    rfl
  exact ⟨hreset, fun now fn => by rw [hreset]⟩

/-- C4 witness: the trace of three failures opens the circuit and schedules a
probe; its success resets the server to the initial state. -/
theorem probe_success_resets_breaker_witness :
    step (run initState failTrace) (Event.probeFire true) = initState :=
  (probe_success_resets_breaker failTrace (by decide)).1

/-- C5: when the pending probe fires and fails, the circuit stays Open and
the failure window is untouched, while exactly one new probe timer with the
same fixed BACKOFF_TIME delay is scheduled (fixed-interval probe spacing,
not exponential) — and this holds at every consecutive probe failure, since
the resulting state again has one pending BACKOFF_TIME timer. -/
theorem probe_failure_keeps_open_reschedules_once (evs : List Event)
    (h : (run initState evs).pendingDelays ≠ []) :
    (step (run initState evs) (Event.probeFire false)).circuitOpen = true ∧
    (step (run initState evs) (Event.probeFire false)).failureTimestamps
      = (run initState evs).failureTimestamps ∧
    (step (run initState evs) (Event.probeFire false)).nextProbe = true ∧
    (step (run initState evs) (Event.probeFire false)).pendingDelays
      = [BACKOFF_TIME] := by
  obtain ⟨hp, hnp, hco⟩ := pending_nonempty_state evs h
  have hfire : step (run initState evs) (Event.probeFire false)
      = { run initState evs with nextProbe := true, pendingDelays := [] ++ [BACKOFF_TIME] } := by
    show fireProbe (run initState evs) false = _
    rw [fireProbe_fail (run initState evs) BACKOFF_TIME [] hp]
  rw [hfire]
  exact ⟨hco, rfl, rfl, rfl⟩

/-- C5 witness: after the tripping trace, a failed probe leaves the circuit
open and schedules exactly one new BACKOFF_TIME probe. -/
theorem probe_failure_keeps_open_reschedules_once_witness :
    (step (run initState failTrace) (Event.probeFire false)).circuitOpen = true ∧
    (step (run initState failTrace) (Event.probeFire false)).pendingDelays
      = [BACKOFF_TIME] := by
  have h := probe_failure_keeps_open_reschedules_once failTrace (by decide)
  exact ⟨h.1, h.2.2.2⟩

/-- C9: a fired probe performs exactly one downstream call, and the request
it sends is a POST to the same production addEvent endpoint the regular
handler posts to, with the fixed probe payload of name field __probe__ and
userId field probe — a real event-creation request, not a side-effect-free
health check. -/
theorem probe_posts_to_addEvent_endpoint (evs : List Event) (ok : Bool)
    (now : Int) (body : List (String × JsonValue))
    (h : (run initState evs).pendingDelays ≠ []) :
    stepCalls (run initState evs) (Event.probeFire ok) = 1 ∧
    probeRequest.url = (downstreamRequest now body).url ∧
    probeRequest.method = "POST" ∧
    probeRequest.body
      = [("name", JsonValue.str "__probe__"), ("userId", JsonValue.str "probe")] := by
  refine ⟨?_, rfl, rfl, rfl⟩
  have hp := (pending_nonempty_state evs h).1
  simp [stepCalls, hp]

/-- C9 witness: after the tripping trace the probe firing counts one
downstream call, aimed at the shared endpoint. -/
theorem probe_posts_to_addEvent_endpoint_witness :
    stepCalls (run initState failTrace) (Event.probeFire false) = 1 ∧
    probeRequest.url = (downstreamRequest 0 []).url :=
  ⟨(probe_posts_to_addEvent_endpoint failTrace false 0 [] (by decide)).1,
   (probe_posts_to_addEvent_endpoint failTrace false 0 [] (by decide)).2.1⟩

/-- Recording a failure at time `t3` in a closed state whose window already
holds at least two failures within the window interval ending at `t3` trips
the threshold and opens the circuit (the new entry is fresh by definition,
and pruning removes no fresh entry). -/
theorem threshold_failure_opens (s : SrvState) (t3 : Int)
    (hclosed : s.circuitOpen = false)
    (hprior : 2 ≤ (s.failureTimestamps.filter
        (fun e => decide (t3 - e ≤ FAILURE_WINDOW))).length) :
    (onFailure s t3).circuitOpen = true := by
  have h1 := length_filter_le_prune t3 (s.failureTimestamps ++ [t3])
  have hpt3 : decide (t3 - t3 ≤ FAILURE_WINDOW) = true := by
    apply decide_eq_true
    unfold FAILURE_WINDOW
    omega
  have hsingle : List.filter (fun e => decide (t3 - e ≤ FAILURE_WINDOW)) [t3] = [t3] := by
    rw [List.filter_cons, hpt3]
    rfl
  have h2 : ((s.failureTimestamps ++ [t3]).filter
        (fun e => decide (t3 - e ≤ FAILURE_WINDOW))).length
      = (s.failureTimestamps.filter
          (fun e => decide (t3 - e ≤ FAILURE_WINDOW))).length + 1 := by
    rw [List.filter_append, hsingle, List.length_append]
    rfl
  have hlen : FAILURE_THRESHOLD ≤ (prune t3 (s.failureTimestamps ++ [t3])).length := by
    unfold FAILURE_THRESHOLD
    omega
  unfold onFailure
  rw [if_pos ⟨hlen, hclosed⟩]
  by_cases hnp : s.nextProbe = true
  · rw [if_pos hnp]
  · rw [if_neg hnp]

/-- C1: whenever a failure is recorded at time t3 in a state where the
circuit is closed and the window already holds two recorded failures within
the FAILURE_WINDOW interval ending at t3 — so that at least
FAILURE_THRESHOLD = 3 failures lie inside one window interval — the breaker
transitions to Open on that threshold-reaching failure, and every regular
call handled afterwards and before the next probe fires is rejected with
the circuit-open response, performs zero downstream calls, and leaves the
state unchanged. -/
theorem circuit_opens_and_rejects_before_probe
    (evs0 : List Event) (t3 : Int) (fn3 : Nat → Bool) (revs : List Event)
    (hclosed : (run initState evs0).circuitOpen = false)
    (hprior : 2 ≤ ((run initState evs0).failureTimestamps.filter
        (fun e => decide (t3 - e ≤ FAILURE_WINDOW))).length)
    (hfail : ∀ i, fn3 i = false)
    (hreq : ∀ e ∈ revs, ∃ now fn, e = Event.request now fn) :
    (step (run initState evs0) (Event.request t3 fn3)).circuitOpen = true ∧
    run (step (run initState evs0) (Event.request t3 fn3)) revs
      = step (run initState evs0) (Event.request t3 fn3) ∧
    runOuts (step (run initState evs0) (Event.request t3 fn3)) revs
      = revs.map (fun _ => (some Resp.circuitOpen, 0)) := by
  have hr : (retryWithBackoff (attemptOp fn3) MAX_RETRIES INITIAL_RETRY_DELAY).1
      = Except.error () := retryGo_fail fn3 hfail INITIAL_RETRY_DELAY MAX_RETRIES 0
  have hstep : step (run initState evs0) (Event.request t3 fn3)
      = onFailure (run initState evs0) t3 := by
    show (handleAddEvent (run initState evs0) t3 fn3).1 = _
    rw [handleAddEvent_closed_fail (run initState evs0) t3 fn3 hclosed () hr]
  have hopen : (step (run initState evs0) (Event.request t3 fn3)).circuitOpen = true := by
    rw [hstep]
    exact threshold_failure_opens (run initState evs0) t3 hclosed hprior
  obtain ⟨h1, h2⟩ := run_requests_open _ hopen revs hreq
  exact ⟨hopen, h1, h2⟩

/-- C1 witness: failures at t = 0s, 1s and 2s (all inside one 30s window)
open the circuit, and a request at t = 3s — before any probe fires — is
rejected with zero downstream calls and no state change. -/
theorem circuit_opens_and_rejects_before_probe_witness :
    (step (run initState [Event.request 0 alwaysFail, Event.request 1000 alwaysFail])
        (Event.request 2000 alwaysFail)).circuitOpen = true ∧
    run (step (run initState [Event.request 0 alwaysFail, Event.request 1000 alwaysFail])
        (Event.request 2000 alwaysFail)) [Event.request 3000 alwaysFail]
      = step (run initState [Event.request 0 alwaysFail, Event.request 1000 alwaysFail])
          (Event.request 2000 alwaysFail) ∧
    runOuts (step (run initState [Event.request 0 alwaysFail, Event.request 1000 alwaysFail])
        (Event.request 2000 alwaysFail)) [Event.request 3000 alwaysFail]
      = [Event.request 3000 alwaysFail].map (fun _ => (some Resp.circuitOpen, 0)) :=
  circuit_opens_and_rejects_before_probe
    [Event.request 0 alwaysFail, Event.request 1000 alwaysFail] 2000 alwaysFail
    [Event.request 3000 alwaysFail] (by decide) (by decide) (fun _ => rfl)
    (by
      intro e he
      rw [List.mem_singleton] at he
      exact ⟨3000, alwaysFail, he⟩)

end ChallengeBackend
